import Mathlib

/-!
Verification of the moondream-go client library.

Shallow embedding of the Go source: the client data model (`ClientConfig`,
`MoondreamClient`), construction with option functions
(`NewMoondreamClient`, `WithTimeout`, `WithBaseURL`), the image encoder
(`encodeImage`, over an explicit file-system oracle), and the request
executor `sendRequest` (the retry loop of client.go, lines 77-138), with
the network, the JSON decoding of the success body and the cancellation
signal passed in as explicit parameters.

Go `time.Duration` is an int64 count of nanoseconds; durations are
modelled as `Int`.  Go `int` fields (`MaxRetries`, HTTP status codes) are
modelled as `Int`.  Bytes are `Nat` with an explicit `< 256` bound where
it matters.
-/

namespace MoondreamGo

/-- One nanosecond-count second, mirroring Go `time.Second`. -/
def second : Int := 1000000000

/-- Default configuration values (client.go lines 16-21). -/
def defaultTimeout : Int := 30 * second

def defaultBaseURL : String := "https://api.moondream.ai/v1"

def defaultMaxRetries : Int := 3

def defaultRetryDelay : Int := 1 * second

/-- ClientConfig (types.go): configuration for the Moondream client. -/
structure ClientConfig where
  Timeout : Int
  BaseURL : String
  MaxRetries : Int
  RetryDelay : Int
  deriving Repr, DecidableEq

/-- MoondreamClient (client.go lines 23-27): config, the HTTP transport's
own timeout field (`client.Timeout` of the embedded `http.Client`), and
the API key. -/
structure MoondreamClient where
  config : ClientConfig
  clientTimeout : Int
  apiKey : String
  deriving Repr, DecidableEq

/-- ClientOption (types.go): a function that modifies the client.
Go mutates in place; modelled functionally. -/
def ClientOption : Type := MoondreamClient → MoondreamClient

/-- NewMoondreamClient (client.go lines 30-50): build the default config,
wrap it in a client whose transport timeout is the config timeout, then
apply the options in order. -/
def NewMoondreamClient (apiKey : String) (opts : List ClientOption) : MoondreamClient :=
  let config : ClientConfig :=
    { Timeout := defaultTimeout
      BaseURL := defaultBaseURL
      MaxRetries := defaultMaxRetries
      RetryDelay := defaultRetryDelay }
  let client : MoondreamClient :=
    { config := config
      clientTimeout := config.Timeout
      apiKey := apiKey }
  opts.foldl (fun c opt => opt c) client

/-- WithTimeout (client.go lines 53-58): sets both the config timeout and
the HTTP transport's timeout. -/
def WithTimeout (timeout : Int) : ClientOption :=
  fun c => { c with config := { c.config with Timeout := timeout }, clientTimeout := timeout }

/-- WithBaseURL (client.go lines 61-65): sets only the config base URL. -/
def WithBaseURL (baseURL : String) : ClientOption :=
  fun c => { c with config := { c.config with BaseURL := baseURL } }

/-- An outgoing HTTP request as assembled by sendRequest before the retry
loop (client.go lines 83-89): POST to BaseURL+endpoint, with the
`X-Moondream-Auth` and `Content-Type` headers set. -/
structure HttpRequest where
  method : String
  url : String
  headers : List (String × String)
  body : String
  deriving Repr, DecidableEq

/-- The request-building prefix of sendRequest (client.go lines 83-89).
`jsonPayload` is the already-marshalled JSON body. -/
def buildRequest (c : MoondreamClient) (endpoint : String) (jsonPayload : String) : HttpRequest :=
  { method := "POST"
    url := c.config.BaseURL ++ endpoint
    headers := [("X-Moondream-Auth", c.apiKey), ("Content-Type", "application/json")]
    body := jsonPayload }

/-! ## Base64 and the image encoder (client.go lines 67-75)

`encodeImage` reads the file and returns
`"data:image/jpeg;base64," ++ base64(bytes)`.  Go's
`base64.StdEncoding.EncodeToString` is the standard alphabet with `=`
padding; it is embedded here byte-for-byte. -/

/-- The standard base64 alphabet, as in Go `base64.StdEncoding`. -/
def b64Alphabet : List Char :=
  "ABCDEFGHIJKLMNOPQRSTUVWXYZabcdefghijklmnopqrstuvwxyz0123456789+/".data

/-- The character for a six-bit value. -/
def b64Char (n : Nat) : Char := b64Alphabet.getD n 'A'

/-- The six-bit value of an alphabet character (inverse of `b64Char` on
the alphabet). -/
def b64Index (c : Char) : Nat := b64Alphabet.indexOf c

/-- Go `base64.StdEncoding.EncodeToString`: three bytes become four
sextet characters; a trailing byte or byte pair is padded with `=`. -/
def base64EncodeList : List Nat → List Char
  | [] => []
  | [a] => [b64Char (a / 4), b64Char (a % 4 * 16), '=', '=']
  | [a, b] => [b64Char (a / 4), b64Char (a % 4 * 16 + b / 16), b64Char (b % 16 * 4), '=']
  | a :: b :: d :: rest =>
      b64Char (a / 4) :: b64Char (a % 4 * 16 + b / 16) ::
        b64Char (b % 16 * 4 + d / 64) :: b64Char (d % 64) :: base64EncodeList rest

/-- Standard base64 decoding of a well-formed encoding: four characters
yield three bytes, with `=` padding signalling a final one- or two-byte
group. -/
def base64Decode : List Char → List Nat
  | c0 :: c1 :: c2 :: c3 :: rest =>
      if c2 = '=' then
        [b64Index c0 * 4 + b64Index c1 / 16]
      else if c3 = '=' then
        [b64Index c0 * 4 + b64Index c1 / 16,
         b64Index c1 % 16 * 16 + b64Index c2 / 4]
      else
        (b64Index c0 * 4 + b64Index c1 / 16) ::
          (b64Index c1 % 16 * 16 + b64Index c2 / 4) ::
          (b64Index c2 % 4 * 64 + b64Index c3) :: base64Decode rest
  | _ => []

/-- encodeImage (client.go lines 67-75).  The file system is an explicit
oracle: `readFile path` is `some bytes` when `os.ReadFile` succeeds and
`none` when it fails. -/
def encodeImage (readFile : String → Option (List Nat)) (imagePath : String) :
    Except String String :=
  match readFile imagePath with
  | none => .error "failed to read image file"
  | some imageData =>
      .ok ("data:image/jpeg;base64," ++ (base64EncodeList imageData).asString)

/-! ## Errors, JSON bodies and the retry loop (client.go lines 91-138) -/

/-- APIError (types.go lines 230-233): `status_code` and `message`,
both with Go zero values when absent from the JSON. -/
structure APIError where
  StatusCode : Int
  Message : String
  deriving Repr, DecidableEq

/-- A small JSON value AST, enough to model `json.Unmarshal` of a
response body into the `APIError` struct. -/
inductive Json where
  | null : Json
  | bool (b : Bool) : Json
  | num (n : Int) : Json
  | str (s : String) : Json
  | arr (elems : List Json) : Json
  | obj (fields : List (String × Json)) : Json
  deriving Repr

/-- A response body as read from the wire: its raw text, and the result
of parsing that text as JSON (`none` when the text is not valid JSON).
The pairing stands in for Go's `json.Unmarshal` syntax phase. -/
structure RawBody where
  text : String
  json : Option Json
  deriving Repr

/-- Field lookup in a JSON object with Go `encoding/json` semantics for
duplicate keys: the last occurrence wins. -/
def jsonField (fields : List (String × Json)) (key : String) : Option Json :=
  fields.reverse.lookup key

/-- Unmarshalling the `status_code` field of an `APIError`: it must be a
JSON number; a missing field or a JSON `null` leaves the Go zero value
`0`; anything else is a type error. -/
def scField : Option Json → Option Int
  | none => some 0
  | some (.num n) => some n
  | some .null => some 0
  | some _ => none

/-- Unmarshalling the `message` field of an `APIError`: it must be a
JSON string; a missing field or a JSON `null` leaves the Go zero value
`""`; anything else is a type error. -/
def msgField : Option Json → Option String
  | none => some ""
  | some (.str s) => some s
  | some .null => some ""
  | some _ => none

/-- `json.Unmarshal(body, &apiErr)` for an already-parsed JSON value:
only `null` and objects unmarshal into a struct; unknown fields are
ignored; a field of the wrong type fails the unmarshal. -/
def unmarshalAPIError : Json → Option APIError
  | .null => some { StatusCode := 0, Message := "" }
  | .obj fields =>
      match scField (jsonField fields "status_code"),
            msgField (jsonField fields "message") with
      | some sc, some msg => some { StatusCode := sc, Message := msg }
      | _, _ => none
  | _ => none

/-- The error-body handling of client.go lines 114-121: try to unmarshal
the body as APIError JSON; on failure, synthesize an APIError from the
HTTP status and the raw body text. -/
def bodyAPIError (status : Int) (body : RawBody) : APIError :=
  match body.json >>= unmarshalAPIError with
  | some apiErr => apiErr
  | none => { StatusCode := status, Message := body.text }

/-- What one network attempt yields: a transport failure (`client.Do`
error), a body-read failure (`io.ReadAll` error), or a response with a
status code and a body. -/
inductive NetOutcome where
  | transportError (msg : String) : NetOutcome
  | readError (msg : String) : NetOutcome
  | response (status : Int) (body : RawBody) : NetOutcome
  deriving Repr

/-- The errors `sendRequest` can produce. -/
inductive MDError where
  | networkError (msg : String) : MDError
  | readBodyError (msg : String) : MDError
  | apiError (e : APIError) : MDError
  | decodeError (raw : String) : MDError
  | ctxError : MDError
  | maxRetriesExceeded (last : Option MDError) : MDError
  deriving Repr

/-- Observable behaviour of one `sendRequest` invocation: the number of
`client.Do` calls made and the completed backoff waits, in order. -/
structure Trace where
  attempts : Nat
  delays : List Int
  deriving Repr, DecidableEq

/-- The result of the retry loop, with its trace. -/
inductive LoopResult (R : Type) where
  | success (r : R) (trace : Trace) : LoopResult R
  | failure (e : MDError) (trace : Trace) : LoopResult R
  deriving Repr

/-- Extract the trace of a loop result. -/
def LoopResult.trace {R : Type} : LoopResult R → Trace
  | .success _ t => t
  | .failure _ t => t

/-- The retry loop of sendRequest (client.go lines 91-137), one Go
iteration per unit of `fuel`.  `net i` is what the network does on
attempt `i`; `decode` is `json.Unmarshal` into the expected response
shape; `cancel i` is true when the context's cancellation signal fires
before the timer during the backoff wait of attempt `i`. -/
def loopGo {R : Type} (cfg : ClientConfig) (net : Nat → NetOutcome)
    (decode : RawBody → Option R) (cancel : Nat → Bool) :
    Nat → Nat → Option MDError → Nat → List Int → LoopResult R
  | 0, _, lastErr, made, delays =>
      .failure (.maxRetriesExceeded lastErr) ⟨made, delays⟩
  | fuel + 1, i, _lastErr, made, delays =>
      if 0 < i ∧ cancel i then
        .failure .ctxError ⟨made, delays⟩
      else
        let delays' := if 0 < i then delays ++ [cfg.RetryDelay * (i : Int)] else delays
        match net i with
        | .transportError msg =>
            loopGo cfg net decode cancel fuel (i + 1)
              (some (.networkError msg)) (made + 1) delays'
        | .readError msg =>
            loopGo cfg net decode cancel fuel (i + 1)
              (some (.readBodyError msg)) (made + 1) delays'
        | .response status body =>
            if 400 ≤ status then
              let apiErr := bodyAPIError status body
              if status < 500 then
                .failure (.apiError apiErr) ⟨made + 1, delays'⟩
              else
                loopGo cfg net decode cancel fuel (i + 1)
                  (some (.apiError apiErr)) (made + 1) delays'
            else
              match decode body with
              | none =>
                  loopGo cfg net decode cancel fuel (i + 1)
                    (some (.decodeError body.text)) (made + 1) delays'
              | some r => .success r ⟨made + 1, delays'⟩

/-- An attempt outcome on which the loop records an error and continues
to the next attempt (client.go: transport failure, body-read failure,
5xx response, or a success-status body that fails to decode). -/
def retryable {R : Type} (decode : RawBody → Option R) : NetOutcome → Prop
  | .transportError _ => True
  | .readError _ => True
  | .response st bd => if 400 ≤ st then 500 ≤ st else decode bd = none

/-- sendRequest (client.go lines 77-138) after payload marshalling: build
the request, then run the retry loop for `MaxRetries + 1` iterations
(Go `for attempt := 0; attempt <= c.config.MaxRetries; attempt++`). -/
def sendRequest {R : Type} (c : MoondreamClient) (endpoint : String) (jsonPayload : String)
    (net : HttpRequest → Nat → NetOutcome) (decode : RawBody → Option R)
    (cancel : Nat → Bool) : LoopResult R :=
  let req := buildRequest c endpoint jsonPayload
  loopGo c.config (net req) decode cancel (c.config.MaxRetries + 1).toNat 0 none 0 []

/-! ## Theorems -/

/-- C1 counterexample: the built request carries no `X-Api-Auth` header
at all; the authentication header the code actually sets is
`X-Moondream-Auth` (client.go line 88). -/
theorem buildRequest_no_XApiAuth_header :
    ((buildRequest (NewMoondreamClient "k" []) "/caption" "p").headers.lookup
        "X-Api-Auth" = none) ∧
    ((buildRequest (NewMoondreamClient "k" []) "/caption" "p").headers.lookup
        "X-Moondream-Auth" = some "k") := by
  constructor <;> rfl

/-- C1 (amended): the request executor builds an HTTP POST to
`BaseURL ++ endpoint` carrying the header `X-Moondream-Auth` set to the
client's API key and the header `Content-Type` set to
`application/json`. -/
theorem buildRequest_post_headers (c : MoondreamClient) (endpoint jsonPayload : String) :
    (buildRequest c endpoint jsonPayload).method = "POST" ∧
    (buildRequest c endpoint jsonPayload).url = c.config.BaseURL ++ endpoint ∧
    (buildRequest c endpoint jsonPayload).headers.lookup "X-Moondream-Auth" = some c.apiKey ∧
    (buildRequest c endpoint jsonPayload).headers.lookup "Content-Type" =
      some "application/json" := by
  refine ⟨rfl, rfl, rfl, rfl⟩

/-- C8: constructing a client with no option functions yields the default
configuration: timeout 30 s, base URL `https://api.moondream.ai/v1`,
max retries 3, retry delay 1 s; the transport timeout equals the config
timeout and the API key is stored as given. -/
theorem newMoondreamClient_defaults (apiKey : String) :
    NewMoondreamClient apiKey [] =
      { config :=
          { Timeout := 30 * second
            BaseURL := "https://api.moondream.ai/v1"
            MaxRetries := 3
            RetryDelay := 1 * second }
        clientTimeout := 30 * second
        apiKey := apiKey } := rfl

/-- C10: `WithBaseURL` changes only the `BaseURL` field: the timeout,
max-retries and retry-delay configuration fields, the API key and the
HTTP transport's timeout are unchanged. -/
theorem withBaseURL_frame (c : MoondreamClient) (baseURL : String) :
    (WithBaseURL baseURL c).config.BaseURL = baseURL ∧
    (WithBaseURL baseURL c).config.Timeout = c.config.Timeout ∧
    (WithBaseURL baseURL c).config.MaxRetries = c.config.MaxRetries ∧
    (WithBaseURL baseURL c).config.RetryDelay = c.config.RetryDelay ∧
    (WithBaseURL baseURL c).apiKey = c.apiKey ∧
    (WithBaseURL baseURL c).clientTimeout = c.clientTimeout := by
  refine ⟨rfl, rfl, rfl, rfl, rfl, rfl⟩

/-- `b64Index` inverts `b64Char` on six-bit values. -/
theorem b64Index_b64Char : ∀ n, n < 64 → b64Index (b64Char n) = n := by decide

/-- No six-bit value encodes to the padding character. -/
theorem b64Char_ne_pad : ∀ n, n < 64 → b64Char n ≠ '=' := by decide

/-- Base64 decoding inverts base64 encoding on byte lists. -/
theorem base64_decode_encode (bs : List Nat) (h : ∀ b ∈ bs, b < 256) :
    base64Decode (base64EncodeList bs) = bs := by
  induction bs using base64EncodeList.induct with
  | case1 => rfl
  | case2 a =>
      have ha : a < 256 := h a (by simp)
      simp only [base64EncodeList]
      rw [base64Decode]
      rw [if_pos rfl, b64Index_b64Char (a / 4) (by omega),
        b64Index_b64Char (a % 4 * 16) (by omega)]
      have e0 : a / 4 * 4 + a % 4 * 16 / 16 = a := by omega
      rw [e0]
  | case3 a b =>
      have ha : a < 256 := h a (by simp)
      have hb : b < 256 := h b (by simp)
      have h2 : b % 16 * 4 < 64 := by omega
      simp only [base64EncodeList]
      rw [base64Decode]
      rw [if_neg (b64Char_ne_pad _ h2), if_pos rfl,
        b64Index_b64Char (a / 4) (by omega),
        b64Index_b64Char (a % 4 * 16 + b / 16) (by omega),
        b64Index_b64Char (b % 16 * 4) (by omega)]
      have e0 : a / 4 * 4 + (a % 4 * 16 + b / 16) / 16 = a := by omega
      have e1 : (a % 4 * 16 + b / 16) % 16 * 16 + b % 16 * 4 / 4 = b := by omega
      rw [e0, e1]
  | case4 a b d rest ih =>
      have ha : a < 256 := h a (by simp)
      have hb : b < 256 := h b (by simp)
      have hd : d < 256 := h d (by simp)
      have h2 : b % 16 * 4 + d / 64 < 64 := by omega
      have h3 : d % 64 < 64 := by omega
      simp only [base64EncodeList]
      rw [base64Decode]
      rw [if_neg (b64Char_ne_pad _ h2), if_neg (b64Char_ne_pad _ h3),
        b64Index_b64Char (a / 4) (by omega),
        b64Index_b64Char (a % 4 * 16 + b / 16) (by omega),
        b64Index_b64Char (b % 16 * 4 + d / 64) (by omega),
        b64Index_b64Char (d % 64) (by omega),
        ih (fun x hx => h x (by simp [hx]))]
      have e0 : a / 4 * 4 + (a % 4 * 16 + b / 16) / 16 = a := by omega
      have e1 : (a % 4 * 16 + b / 16) % 16 * 16 + (b % 16 * 4 + d / 64) / 4 = b := by omega
      have e2 : (b % 16 * 4 + d / 64) % 4 * 64 + d % 64 = d := by omega
      rw [e0, e1, e2]

/-- Helper: one retrying iteration of the loop at a waiting attempt
`i ≥ 1` that receives a 5xx response: the wait completes, the attempt is
made, the APIError is recorded, and the loop continues. -/
theorem loopGo_step_5xx {R : Type} (cfg : ClientConfig) (net : Nat → NetOutcome)
    (decode : RawBody → Option R) (cancel : Nat → Bool)
    (fuel i made : Nat) (delays : List Int) (lastErr : Option MDError)
    (st : Int) (bd : RawBody)
    (hi : 1 ≤ i) (hc : cancel i = false)
    (hnet : net i = .response st bd) (h5 : 500 ≤ st) :
    loopGo cfg net decode cancel (fuel + 1) i lastErr made delays =
      loopGo cfg net decode cancel fuel (i + 1)
        (some (.apiError (bodyAPIError st bd))) (made + 1)
        (delays ++ [cfg.RetryDelay * (i : Int)]) := by
  have h400 : (400 : Int) ≤ st := by omega
  have hn5 : ¬ st < 500 := by omega
  have h0i : 0 < i := hi
  rw [loopGo]
  simp [hc, h0i, hnet, h400, hn5]

/-- Helper: `m` consecutive waiting iterations that all receive 5xx
responses with no cancellation advance the loop by `m` attempts,
recording the last APIError and completing the linear-backoff waits
`RetryDelay * i, …, RetryDelay * (i + m - 1)`. -/
theorem loopGo_skip_5xx {R : Type} (cfg : ClientConfig) (net : Nat → NetOutcome)
    (decode : RawBody → Option R) (cancel : Nat → Bool)
    (st : Nat → Int) (bd : Nat → RawBody) :
    ∀ (m fuel i : Nat) (lastErr : Option MDError) (made : Nat) (delays : List Int),
      1 ≤ i →
      (∀ j, i ≤ j → j < i + m → net j = .response (st j) (bd j)) →
      (∀ j, i ≤ j → j < i + m → 500 ≤ st j) →
      (∀ j, i ≤ j → j < i + m → cancel j = false) →
      loopGo cfg net decode cancel (m + fuel) i lastErr made delays =
        loopGo cfg net decode cancel fuel (i + m)
          (if m = 0 then lastErr
           else some (.apiError (bodyAPIError (st (i + m - 1)) (bd (i + m - 1)))))
          (made + m)
          (delays ++ (List.range' i m).map (fun (j : Nat) => cfg.RetryDelay * (j : Int))) := by
  intro m
  induction m with
  | zero =>
      intro fuel i lastErr made delays hi _ _ _
      simp
  | succ m ih =>
      intro fuel i lastErr made delays hi hnet h5 hc
      have hstep := loopGo_step_5xx cfg net decode cancel (m + fuel) i made delays lastErr
        (st i) (bd i) hi (hc i le_rfl (by omega)) (hnet i le_rfl (by omega))
        (h5 i le_rfl (by omega))
      have harr : m + 1 + fuel = m + fuel + 1 := by omega
      rw [harr, hstep]
      rw [ih fuel (i + 1) (some (.apiError (bodyAPIError (st i) (bd i)))) (made + 1)
        (delays ++ [cfg.RetryDelay * (i : Int)])
        (by omega)
        (fun j hj hj2 => hnet j (by omega) (by omega))
        (fun j hj hj2 => h5 j (by omega) (by omega))
        (fun j hj hj2 => hc j (by omega) (by omega))]
      have hidx : i + 1 + m = i + (m + 1) := by omega
      have hmade : made + 1 + m = made + (m + 1) := by omega
      have hdelays : (delays ++ [cfg.RetryDelay * (i : Int)]) ++
          (List.range' (i + 1) m).map (fun (j : Nat) => cfg.RetryDelay * (j : Int)) =
          delays ++ (List.range' i (m + 1)).map (fun (j : Nat) => cfg.RetryDelay * (j : Int)) := by
        rw [List.range'_succ, List.map_cons, List.append_assoc]
        rfl
      rw [hidx, hmade, hdelays]
      cases m with
      | zero => simp
      | succ m' =>
          have e1 : i + 1 + (m' + 1) - 1 = i + (m' + 1 + 1) - 1 := by omega
          simp [e1]

/-- Helper: the loop never makes fewer attempts than already recorded. -/
theorem loopGo_attempts_le {R : Type} (cfg : ClientConfig) (net : Nat → NetOutcome)
    (decode : RawBody → Option R) (cancel : Nat → Bool) :
    ∀ (fuel i : Nat) (lastErr : Option MDError) (made : Nat) (delays : List Int),
      made ≤ (loopGo cfg net decode cancel fuel i lastErr made delays).trace.attempts := by
  intro fuel
  induction fuel with
  | zero =>
      intro i lastErr made delays
      simp [loopGo, LoopResult.trace]
  | succ fuel ih =>
      intro i lastErr made delays
      rw [loopGo]
      split
      · simp [LoopResult.trace]
      · cases hn : net i with
        | transportError msg =>
            simp only [hn]
            exact Nat.le_trans (Nat.le_succ made) (ih _ _ _ _)
        | readError msg =>
            simp only [hn]
            exact Nat.le_trans (Nat.le_succ made) (ih _ _ _ _)
        | response st bd =>
            simp only [hn]
            split
            · split
              · simp [LoopResult.trace]
              · exact Nat.le_trans (Nat.le_succ made) (ih _ _ _ _)
            · cases hd : decode bd with
              | none =>
                  simp only [hd]
                  exact Nat.le_trans (Nat.le_succ made) (ih _ _ _ _)
              | some r => simp [hd, LoopResult.trace]

/-- Helper: an uncancelled iteration always performs a network attempt,
whatever its outcome. -/
theorem loopGo_attempt_made {R : Type} (cfg : ClientConfig) (net : Nat → NetOutcome)
    (decode : RawBody → Option R) (cancel : Nat → Bool)
    (fuel i made : Nat) (delays : List Int) (lastErr : Option MDError)
    (hc : cancel i = false) :
    made + 1 ≤ (loopGo cfg net decode cancel (fuel + 1) i lastErr made delays).trace.attempts := by
  rw [loopGo]
  have hnc : ¬ (0 < i ∧ cancel i) := by simp [hc]
  rw [if_neg hnc]
  cases hn : net i with
  | transportError msg => exact loopGo_attempts_le cfg net decode cancel _ _ _ _ _
  | readError msg => exact loopGo_attempts_le cfg net decode cancel _ _ _ _ _
  | response st bd =>
      simp only
      split
      · split
        · simp [LoopResult.trace]
        · exact loopGo_attempts_le cfg net decode cancel _ _ _ _ _
      · cases hd : decode bd with
        | none => exact loopGo_attempts_le cfg net decode cancel _ _ _ _ _
        | some r => simp [LoopResult.trace]

/-- Helper: the first iteration (attempt 0, no wait) on a 5xx response
records the APIError and continues. -/
theorem loopGo_step0_5xx {R : Type} (cfg : ClientConfig) (net : Nat → NetOutcome)
    (decode : RawBody → Option R) (cancel : Nat → Bool)
    (fuel made : Nat) (delays : List Int) (lastErr : Option MDError)
    (st : Int) (bd : RawBody)
    (hnet : net 0 = .response st bd) (h5 : 500 ≤ st) :
    loopGo cfg net decode cancel (fuel + 1) 0 lastErr made delays =
      loopGo cfg net decode cancel fuel 1
        (some (.apiError (bodyAPIError st bd))) (made + 1) delays := by
  have h400 : (400 : Int) ≤ st := by omega
  have hn5 : ¬ st < 500 := by omega
  rw [loopGo]
  simp [hnet, h400, hn5]

/-- C2: with max_retries ≥ 0, if every attempt receives a 5xx response
and cancellation never fires, the executor makes exactly
`MaxRetries + 1` attempts with completed waits
`RetryDelay * 1, …, RetryDelay * MaxRetries` (linear backoff), and
returns the wrapped max-retries-exceeded error carrying the APIError
recorded on the last attempt. -/
theorem sendRequest_all_5xx_exhausts {R : Type} (c : MoondreamClient)
    (endpoint jsonPayload : String) (net : HttpRequest → Nat → NetOutcome)
    (decode : RawBody → Option R) (cancel : Nat → Bool)
    (st : Nat → Int) (bd : Nat → RawBody)
    (hmr : 0 ≤ c.config.MaxRetries)
    (hnet : ∀ j, net (buildRequest c endpoint jsonPayload) j = .response (st j) (bd j))
    (h5 : ∀ j, 500 ≤ st j)
    (hc : ∀ j, cancel j = false) :
    sendRequest c endpoint jsonPayload net decode cancel =
      .failure
        (.maxRetriesExceeded (some (.apiError
          (bodyAPIError (st c.config.MaxRetries.toNat) (bd c.config.MaxRetries.toNat)))))
        ⟨c.config.MaxRetries.toNat + 1,
          (List.range' 1 c.config.MaxRetries.toNat).map
            (fun (j : Nat) => c.config.RetryDelay * (j : Int))⟩ := by
  have hfuel : (c.config.MaxRetries + 1).toNat = c.config.MaxRetries.toNat + 1 := by omega
  simp only [sendRequest, hfuel]
  rw [loopGo_step0_5xx c.config (net (buildRequest c endpoint jsonPayload)) decode cancel
    c.config.MaxRetries.toNat 0 [] none (st 0) (bd 0) (hnet 0) (h5 0)]
  cases hcase : c.config.MaxRetries.toNat with
  | zero => simp [loopGo]
  | succ m =>
      have hskip := loopGo_skip_5xx c.config (net (buildRequest c endpoint jsonPayload))
        decode cancel st bd (m + 1) 0 1
        (some (.apiError (bodyAPIError (st 0) (bd 0)))) 1 []
        le_rfl (fun j _ _ => hnet j) (fun j _ _ => h5 j) (fun j _ _ => hc j)
      rw [Nat.add_zero] at hskip
      rw [hskip, loopGo]
      have e1 : 1 + (m + 1) - 1 = m + 1 := by omega
      have e2 : 1 + (m + 1) = m + 1 + 1 := by omega
      simp [e1, e2]

/-- Helper: a 4xx response on the first attempt makes the executor
return `lastErr = &apiErr` at once, after one attempt and no waits. -/
theorem sendRequest_4xx_result {R : Type} (c : MoondreamClient)
    (endpoint jsonPayload : String) (net : HttpRequest → Nat → NetOutcome)
    (decode : RawBody → Option R) (cancel : Nat → Bool) (st : Int) (bd : RawBody)
    (hmr : 0 ≤ c.config.MaxRetries)
    (hnet : net (buildRequest c endpoint jsonPayload) 0 = .response st bd)
    (h4 : 400 ≤ st) (h45 : st < 500) :
    sendRequest c endpoint jsonPayload net decode cancel =
      .failure (.apiError (bodyAPIError st bd)) ⟨1, []⟩ := by
  have hfuel : (c.config.MaxRetries + 1).toNat = c.config.MaxRetries.toNat + 1 := by omega
  simp only [sendRequest, hfuel]
  rw [loopGo]
  simp [hnet, h4, h45]

/-- C3: a 4xx response is returned immediately after exactly one attempt
with no backoff wait, while a 5xx first response (with retry budget and
no cancellation) leads to at least a second attempt. -/
theorem sendRequest_4xx_immediate {R : Type} (c : MoondreamClient)
    (endpoint jsonPayload : String) (net : HttpRequest → Nat → NetOutcome)
    (decode : RawBody → Option R) (cancel : Nat → Bool)
    (hmr : 0 ≤ c.config.MaxRetries) :
    (∀ st bd, net (buildRequest c endpoint jsonPayload) 0 = .response st bd →
      400 ≤ st → st < 500 →
      sendRequest c endpoint jsonPayload net decode cancel =
        .failure (.apiError (bodyAPIError st bd)) ⟨1, []⟩) ∧
    (∀ st bd, net (buildRequest c endpoint jsonPayload) 0 = .response st bd →
      500 ≤ st → 1 ≤ c.config.MaxRetries → cancel 1 = false →
      2 ≤ (sendRequest c endpoint jsonPayload net decode cancel).trace.attempts) := by
  constructor
  · intro st bd hnet h4 h45
    exact sendRequest_4xx_result c endpoint jsonPayload net decode cancel st bd hmr hnet h4 h45
  · intro st bd hnet h5 hmr1 hc1
    have hfuel : (c.config.MaxRetries + 1).toNat = c.config.MaxRetries.toNat + 1 := by omega
    obtain ⟨m, hm⟩ : ∃ m, c.config.MaxRetries.toNat = m + 1 :=
      ⟨c.config.MaxRetries.toNat - 1, by omega⟩
    simp only [sendRequest, hfuel, hm]
    rw [loopGo_step0_5xx c.config (net (buildRequest c endpoint jsonPayload)) decode cancel
      (m + 1) 0 [] none st bd hnet h5]
    exact loopGo_attempt_made c.config (net (buildRequest c endpoint jsonPayload)) decode cancel
      m 1 1 [] (some (.apiError (bodyAPIError st bd))) hc1

/-- Helper: one iteration on any retryable outcome records some error
and continues, completing the backoff wait when `i ≥ 1`. -/
theorem loopGo_step_retryable {R : Type} (cfg : ClientConfig) (net : Nat → NetOutcome)
    (decode : RawBody → Option R) (cancel : Nat → Bool)
    (fuel i made : Nat) (delays : List Int) (lastErr : Option MDError)
    (hc : cancel i = false) (hr : retryable decode (net i)) :
    ∃ lastErr', loopGo cfg net decode cancel (fuel + 1) i lastErr made delays =
      loopGo cfg net decode cancel fuel (i + 1) lastErr' (made + 1)
        (if 0 < i then delays ++ [cfg.RetryDelay * (i : Int)] else delays) := by
  rw [loopGo]
  rw [if_neg (by simp [hc])]
  cases hn : net i with
  | transportError msg => exact ⟨some (.networkError msg), rfl⟩
  | readError msg => exact ⟨some (.readBodyError msg), rfl⟩
  | response st bd =>
      rw [hn] at hr
      simp only [retryable] at hr
      dsimp only
      by_cases h4 : (400 : Int) ≤ st
      · rw [if_pos h4] at hr
        rw [if_pos h4, if_neg (by omega : ¬ st < 500)]
        exact ⟨some (.apiError (bodyAPIError st bd)), rfl⟩
      · rw [if_neg h4] at hr
        rw [if_neg h4, hr]
        exact ⟨some (.decodeError bd.text), rfl⟩

/-- Helper: `m` consecutive waiting iterations on retryable outcomes
with no cancellation advance the loop by `m` attempts and complete the
linear-backoff waits. -/
theorem loopGo_skip_retryable {R : Type} (cfg : ClientConfig) (net : Nat → NetOutcome)
    (decode : RawBody → Option R) (cancel : Nat → Bool) :
    ∀ (m fuel i : Nat) (lastErr : Option MDError) (made : Nat) (delays : List Int),
      1 ≤ i →
      (∀ j, i ≤ j → j < i + m → retryable decode (net j)) →
      (∀ j, i ≤ j → j < i + m → cancel j = false) →
      ∃ lastErr', loopGo cfg net decode cancel (m + fuel) i lastErr made delays =
        loopGo cfg net decode cancel fuel (i + m) lastErr' (made + m)
          (delays ++ (List.range' i m).map (fun (j : Nat) => cfg.RetryDelay * (j : Int))) := by
  intro m
  induction m with
  | zero =>
      intro fuel i lastErr made delays hi _ _
      exact ⟨lastErr, by simp⟩
  | succ m ih =>
      intro fuel i lastErr made delays hi hr hc
      obtain ⟨l1, h1⟩ := loopGo_step_retryable cfg net decode cancel (m + fuel) i made delays
        lastErr (hc i le_rfl (by omega)) (hr i le_rfl (by omega))
      rw [if_pos (by omega)] at h1
      obtain ⟨l2, h2⟩ := ih fuel (i + 1) l1 (made + 1) (delays ++ [cfg.RetryDelay * (i : Int)])
        (by omega) (fun j hj hj2 => hr j (by omega) (by omega))
        (fun j hj hj2 => hc j (by omega) (by omega))
      refine ⟨l2, ?_⟩
      have harr : m + 1 + fuel = m + fuel + 1 := by omega
      rw [harr, h1, h2]
      have hidx : i + 1 + m = i + (m + 1) := by omega
      have hmade : made + 1 + m = made + (m + 1) := by omega
      have hdelays : (delays ++ [cfg.RetryDelay * (i : Int)]) ++
          (List.range' (i + 1) m).map (fun (j : Nat) => cfg.RetryDelay * (j : Int)) =
          delays ++ (List.range' i (m + 1)).map (fun (j : Nat) => cfg.RetryDelay * (j : Int)) := by
        rw [List.range'_succ, List.map_cons, List.append_assoc]
        rfl
      rw [hidx, hmade, hdelays]

/-- C4: when the cancellation signal fires during the backoff wait
before attempt `k` (after attempts `0, …, k-1` all failed with 5xx), the
executor returns the context's cancellation error at once: exactly `k`
network attempts were made and only the waits before attempts
`1, …, k-1` completed. -/
theorem sendRequest_cancel_during_wait {R : Type} (c : MoondreamClient)
    (endpoint jsonPayload : String) (net : HttpRequest → Nat → NetOutcome)
    (decode : RawBody → Option R) (cancel : Nat → Bool) (k : Nat)
    (hk1 : 1 ≤ k) (hkm : (k : Int) ≤ c.config.MaxRetries)
    (hretry : ∀ j, j < k → retryable decode (net (buildRequest c endpoint jsonPayload) j))
    (hc : ∀ j, j < k → cancel j = false)
    (hck : cancel k = true) :
    sendRequest c endpoint jsonPayload net decode cancel =
      .failure .ctxError
        ⟨k, (List.range' 1 (k - 1)).map (fun (j : Nat) => c.config.RetryDelay * (j : Int))⟩ := by
  have hkmr : k ≤ c.config.MaxRetries.toNat := by omega
  have hfuel : (c.config.MaxRetries + 1).toNat = c.config.MaxRetries.toNat + 1 := by omega
  obtain ⟨r, hr⟩ : ∃ r, c.config.MaxRetries.toNat = (k - 1) + (r + 1) :=
    ⟨c.config.MaxRetries.toNat - k, by omega⟩
  simp only [sendRequest, hfuel, hr]
  obtain ⟨l1, h1⟩ := loopGo_step_retryable c.config (net (buildRequest c endpoint jsonPayload))
    decode cancel ((k - 1) + (r + 1)) 0 0 [] none (hc 0 (by omega)) (hretry 0 (by omega))
  rw [if_neg (Nat.lt_irrefl 0)] at h1
  rw [h1]
  obtain ⟨l2, h2⟩ := loopGo_skip_retryable c.config (net (buildRequest c endpoint jsonPayload))
    decode cancel (k - 1) (r + 1) 1 l1 1 []
    le_rfl (fun j hj hj2 => hretry j (by omega)) (fun j hj hj2 => hc j (by omega))
  rw [h2]
  have hik : 1 + (k - 1) = k := by omega
  rw [hik]
  rw [loopGo]
  rw [if_pos ⟨by omega, hck⟩]
  simp

/-- C2 witness: the default client (max retries 3, retry delay 1 s)
against a network that always answers 500: four attempts, waits of 1 s,
2 s and 3 s, and the wrapped error carries the last APIError. -/
theorem sendRequest_all_5xx_exhausts_witness :
    sendRequest (R := Unit) (NewMoondreamClient "k" []) "/caption" "p"
        (fun _ _ => .response 500 ⟨"oops", none⟩) (fun _ => none) (fun _ => false) =
      .failure (.maxRetriesExceeded (some (.apiError ⟨500, "oops"⟩)))
        ⟨4, [1000000000, 2000000000, 3000000000]⟩ :=
  sendRequest_all_5xx_exhausts (NewMoondreamClient "k" []) "/caption" "p"
    (fun _ _ => .response 500 ⟨"oops", none⟩) (fun _ => none) (fun _ => false)
    (fun _ => 500) (fun _ => ⟨"oops", none⟩)
    (by decide) (fun _ => rfl) (fun _ => le_refl 500) (fun _ => rfl)

/-- C3 witness: a 404 response is returned after one attempt with no
waits, and a 500 first response leads to a second attempt. -/
theorem sendRequest_4xx_immediate_witness :
    (sendRequest (R := Unit) (NewMoondreamClient "k" []) "/query" "p"
        (fun _ _ => .response 404 ⟨"nf", none⟩) (fun _ => none) (fun _ => false) =
      .failure (.apiError ⟨404, "nf"⟩) ⟨1, []⟩) ∧
    2 ≤ (sendRequest (R := Unit) (NewMoondreamClient "k" []) "/query" "p"
        (fun _ _ => .response 500 ⟨"oops", none⟩) (fun _ => none)
        (fun _ => false)).trace.attempts :=
  ⟨(sendRequest_4xx_immediate (NewMoondreamClient "k" []) "/query" "p"
      (fun _ _ => .response 404 ⟨"nf", none⟩) (fun _ => none) (fun _ => false)
      (by decide)).1 404 ⟨"nf", none⟩ rfl (by decide) (by decide),
   (sendRequest_4xx_immediate (NewMoondreamClient "k" []) "/query" "p"
      (fun _ _ => .response 500 ⟨"oops", none⟩) (fun _ => none) (fun _ => false)
      (by decide)).2 500 ⟨"oops", none⟩ rfl (by decide) (by decide) rfl⟩

/-- C4 witness: cancellation firing during the wait before attempt 2
(after two 5xx attempts) yields the cancellation error with exactly two
attempts made and only the 1 s wait completed. -/
theorem sendRequest_cancel_during_wait_witness :
    sendRequest (R := Unit) (NewMoondreamClient "k" []) "/point" "p"
        (fun _ _ => .response 500 ⟨"oops", none⟩) (fun _ => none)
        (fun i => decide (i = 2)) =
      .failure .ctxError ⟨2, [1000000000]⟩ :=
  sendRequest_cancel_during_wait (NewMoondreamClient "k" []) "/point" "p"
    (fun _ _ => .response 500 ⟨"oops", none⟩) (fun _ => none) (fun i => decide (i = 2)) 2
    (by decide) (by decide) (fun j _ => by norm_num [retryable])
    (by decide) (by decide)

/-- C6: for an error status, the body is parsed as APIError JSON, and a
body that fails to parse is replaced by a synthesized APIError carrying
the HTTP status and the raw body text; a 401 response whose JSON body
carries status_code 401 and message `invalid key` yields exactly that
APIError after exactly one attempt. -/
theorem sendRequest_error_body_parse {R : Type} (c : MoondreamClient)
    (endpoint jsonPayload : String) (net : HttpRequest → Nat → NetOutcome)
    (decode : RawBody → Option R) (cancel : Nat → Bool)
    (hmr : 0 ≤ c.config.MaxRetries) :
    (∀ st bd, net (buildRequest c endpoint jsonPayload) 0 = .response st bd →
      400 ≤ st → st < 500 → (bd.json >>= unmarshalAPIError) = none →
      sendRequest c endpoint jsonPayload net decode cancel =
        .failure (.apiError { StatusCode := st, Message := bd.text }) ⟨1, []⟩) ∧
    (∀ bd, net (buildRequest c endpoint jsonPayload) 0 = .response 401 bd →
      bd.text = "\x7b\x22status_code\x22:401,\x22message\x22:\x22invalid key\x22\x7d" →
      bd.json = some (.obj [("status_code", .num 401), ("message", .str "invalid key")]) →
      sendRequest c endpoint jsonPayload net decode cancel =
        .failure (.apiError { StatusCode := 401, Message := "invalid key" }) ⟨1, []⟩) := by
  constructor
  · intro st bd hnet h4 h45 hparse
    have hbody : bodyAPIError st bd = { StatusCode := st, Message := bd.text } := by
      simp [bodyAPIError, hparse]
    rw [← hbody]
    exact sendRequest_4xx_result c endpoint jsonPayload net decode cancel st bd hmr hnet h4 h45
  · intro bd hnet htext hjson
    have hbody : bodyAPIError 401 bd = { StatusCode := 401, Message := "invalid key" } := by
      simp only [bodyAPIError, hjson]
      rfl
    rw [← hbody]
    exact sendRequest_4xx_result c endpoint jsonPayload net decode cancel 401 bd hmr hnet
      (by omega) (by omega)

/-- C6 witness: a 401 response with the JSON body
`\x7b"status_code":401,"message":"invalid key"\x7d`, and a 422 response
with a non-JSON body. -/
theorem sendRequest_error_body_parse_witness :
    (sendRequest (R := Unit) (NewMoondreamClient "k" []) "/detect" "p"
        (fun _ _ => .response 422 ⟨"boom", none⟩) (fun _ => none) (fun _ => false) =
      .failure (.apiError { StatusCode := 422, Message := "boom" }) ⟨1, []⟩) ∧
    (sendRequest (R := Unit) (NewMoondreamClient "k" []) "/detect" "p"
        (fun _ _ => .response 401
          ⟨"\x7b\x22status_code\x22:401,\x22message\x22:\x22invalid key\x22\x7d",
           some (.obj [("status_code", .num 401), ("message", .str "invalid key")])⟩)
        (fun _ => none) (fun _ => false) =
      .failure (.apiError { StatusCode := 401, Message := "invalid key" }) ⟨1, []⟩) :=
  ⟨(sendRequest_error_body_parse (NewMoondreamClient "k" []) "/detect" "p"
      (fun _ _ => .response 422 ⟨"boom", none⟩) (fun _ => none) (fun _ => false)
      (by decide)).1 422 ⟨"boom", none⟩ rfl (by decide) (by decide) rfl,
   (sendRequest_error_body_parse (NewMoondreamClient "k" []) "/detect" "p"
      (fun _ _ => .response 401
        ⟨"\x7b\x22status_code\x22:401,\x22message\x22:\x22invalid key\x22\x7d",
         some (.obj [("status_code", .num 401), ("message", .str "invalid key")])⟩)
      (fun _ => none) (fun _ => false)
      (by decide)).2
     ⟨"\x7b\x22status_code\x22:401,\x22message\x22:\x22invalid key\x22\x7d",
      some (.obj [("status_code", .num 401), ("message", .str "invalid key")])⟩
     rfl rfl rfl⟩

/-- C7: a success-status response whose body fails to decode is recorded
and retried rather than returned: with retry budget left, a second
attempt is made after the backoff wait, and a decodable second response
succeeds. -/
theorem sendRequest_decode_failure_retries {R : Type} (c : MoondreamClient)
    (endpoint jsonPayload : String) (net : HttpRequest → Nat → NetOutcome)
    (decode : RawBody → Option R) (cancel : Nat → Bool) :
    (∀ (st0 st1 : Int) (bd0 bd1 : RawBody) (r : R),
      1 ≤ c.config.MaxRetries → cancel 1 = false →
      net (buildRequest c endpoint jsonPayload) 0 = .response st0 bd0 →
      st0 < 400 → decode bd0 = none →
      net (buildRequest c endpoint jsonPayload) 1 = .response st1 bd1 →
      st1 < 400 → decode bd1 = some r →
      sendRequest c endpoint jsonPayload net decode cancel =
        .success r ⟨2, [c.config.RetryDelay]⟩) ∧
    (∀ (st0 : Int) (bd0 : RawBody),
      c.config.MaxRetries = 0 →
      net (buildRequest c endpoint jsonPayload) 0 = .response st0 bd0 →
      st0 < 400 → decode bd0 = none →
      sendRequest c endpoint jsonPayload net decode cancel =
        .failure (.maxRetriesExceeded (some (.decodeError bd0.text))) ⟨1, []⟩) := by
  constructor
  · intro st0 st1 bd0 bd1 r hmr hc1 hnet0 hst0 hdec0 hnet1 hst1 hdec1
    have hn40 : ¬ (400 : Int) ≤ st0 := by omega
    have hn41 : ¬ (400 : Int) ≤ st1 := by omega
    have hfuel : (c.config.MaxRetries + 1).toNat = c.config.MaxRetries.toNat + 1 := by omega
    obtain ⟨m, hm⟩ : ∃ m, c.config.MaxRetries.toNat = m + 1 :=
      ⟨c.config.MaxRetries.toNat - 1, by omega⟩
    simp only [sendRequest, hfuel, hm]
    rw [loopGo]
    simp only [hnet0, Nat.lt_irrefl, false_and, if_neg (by simp : ¬ (0 < 0 ∧ cancel 0)),
      if_neg (Nat.lt_irrefl 0), if_neg hn40, hdec0]
    rw [loopGo]
    simp [hc1, hnet1, hn41, hdec1]
  · intro st0 bd0 hmr0 hnet0 hst0 hdec0
    have hn40 : ¬ (400 : Int) ≤ st0 := by omega
    have hfuel : (c.config.MaxRetries + 1).toNat = 1 := by omega
    simp only [sendRequest, hfuel]
    rw [loopGo]
    simp only [hnet0, Nat.lt_irrefl, false_and, if_neg (by simp : ¬ (0 < 0 ∧ cancel 0)),
      if_neg (Nat.lt_irrefl 0), if_neg hn40, hdec0]
    simp [loopGo]

/-- C7 witness: a 200 response with an undecodable body on attempt 0 and
a decodable 200 response on attempt 1: the call succeeds after two
attempts and one completed 1 s wait; and with a zero retry budget the
recorded decode error is what the wrapped final error carries. -/
theorem sendRequest_decode_failure_retries_witness :
    (sendRequest (R := Nat) (NewMoondreamClient "k" []) "/caption" "p"
        (fun _ i => if i = 0 then .response 200 ⟨"bad", none⟩
                    else .response 200 ⟨"good", none⟩)
        (fun b => if b.text = "good" then some 7 else none) (fun _ => false) =
      .success 7 ⟨2, [1000000000]⟩) ∧
    (sendRequest (R := Nat)
        { config := { Timeout := 1, BaseURL := "b", MaxRetries := 0, RetryDelay := 1 }
          clientTimeout := 1, apiKey := "k" } "/caption" "p"
        (fun _ _ => .response 200 ⟨"bad", none⟩) (fun _ => none) (fun _ => false) =
      .failure (.maxRetriesExceeded (some (.decodeError "bad"))) ⟨1, []⟩) :=
  ⟨(sendRequest_decode_failure_retries (NewMoondreamClient "k" []) "/caption" "p"
      (fun _ i => if i = 0 then .response 200 ⟨"bad", none⟩
                  else .response 200 ⟨"good", none⟩)
      (fun b => if b.text = "good" then some 7 else none) (fun _ => false)).1
    200 200 ⟨"bad", none⟩ ⟨"good", none⟩ 7
    (by decide) rfl rfl (by decide) (by decide) rfl (by decide) (by decide),
   (sendRequest_decode_failure_retries
      { config := { Timeout := 1, BaseURL := "b", MaxRetries := 0, RetryDelay := 1 }
        clientTimeout := 1, apiKey := "k" } "/caption" "p"
      (fun _ _ => .response 200 ⟨"bad", none⟩) (fun _ => none) (fun _ => false)).2
    200 ⟨"bad", none⟩ rfl rfl (by decide) rfl⟩

/-- C9: an error response in the 4xx range whose body is valid JSON
without a `status_code` field yields an APIError whose StatusCode is the
Go zero value 0, not the HTTP status: the JSON parse succeeds, so the
synthesis branch is not taken. -/
theorem sendRequest_missing_status_code {R : Type} (c : MoondreamClient)
    (endpoint jsonPayload : String) (net : HttpRequest → Nat → NetOutcome)
    (decode : RawBody → Option R) (cancel : Nat → Bool)
    (st : Int) (bd : RawBody) (fields : List (String × Json)) (e : APIError)
    (hmr : 0 ≤ c.config.MaxRetries)
    (hnet : net (buildRequest c endpoint jsonPayload) 0 = .response st bd)
    (h4 : 400 ≤ st) (h45 : st < 500)
    (hjson : bd.json = some (.obj fields))
    (hsc : jsonField fields "status_code" = none)
    (hunm : unmarshalAPIError (.obj fields) = some e) :
    sendRequest c endpoint jsonPayload net decode cancel =
      .failure (.apiError e) ⟨1, []⟩ ∧ e.StatusCode = 0 ∧ e.StatusCode ≠ st := by
  have hsc0 : e.StatusCode = 0 := by
    simp only [unmarshalAPIError, hsc, scField] at hunm
    cases hmsg : msgField (jsonField fields "message") with
    | none => rw [hmsg] at hunm; simp at hunm
    | some s =>
        rw [hmsg] at hunm
        simp only [Option.some.injEq] at hunm
        rw [← hunm]
  refine ⟨?_, hsc0, by omega⟩
  have hbody : bodyAPIError st bd = e := by
    simp [bodyAPIError, hjson, hunm]
  rw [← hbody]
  exact sendRequest_4xx_result c endpoint jsonPayload net decode cancel st bd hmr hnet h4 h45

/-- C9 witness: a 404 response with body `\x7b\x7d` (the empty JSON
object) yields an APIError with StatusCode 0, not 404. -/
theorem sendRequest_missing_status_code_witness :
    (sendRequest (R := Unit) (NewMoondreamClient "k" []) "/query" "p"
        (fun _ _ => .response 404 ⟨"\x7b\x7d", some (.obj [])⟩) (fun _ => none)
        (fun _ => false) =
      .failure (.apiError { StatusCode := 0, Message := "" }) ⟨1, []⟩) ∧
    (0 : Int) = 0 ∧ (0 : Int) ≠ 404 :=
  sendRequest_missing_status_code (NewMoondreamClient "k" []) "/query" "p"
    (fun _ _ => .response 404 ⟨"\x7b\x7d", some (.obj [])⟩) (fun _ => none)
    (fun _ => false) 404 ⟨"\x7b\x7d", some (.obj [])⟩ []
    { StatusCode := 0, Message := "" }
    (by decide) rfl (by decide) (by decide) rfl rfl rfl

/-- C5: for every readable file path, `encodeImage` returns
`data:image/jpeg;base64,` followed by a base64 payload, and decoding
that payload reproduces the file's bytes exactly. -/
theorem encodeImage_roundtrip (readFile : String → Option (List Nat))
    (imagePath : String) (data : List Nat)
    (hread : readFile imagePath = some data)
    (hbytes : ∀ b ∈ data, b < 256) :
    ∃ payload : String,
      encodeImage readFile imagePath = .ok ("data:image/jpeg;base64," ++ payload) ∧
      base64Decode payload.data = data := by
  refine ⟨(base64EncodeList data).asString, ?_, ?_⟩
  · simp [encodeImage, hread]
  · show base64Decode (base64EncodeList data) = data
    exact base64_decode_encode data hbytes

/-- C5 witness: the round-trip theorem at the concrete file content
`[116, 101, 115, 116]` (the bytes of `test`). -/
theorem encodeImage_roundtrip_witness :
    ∃ payload : String,
      encodeImage (fun _ => some [116, 101, 115, 116]) "img.jpg" =
        .ok ("data:image/jpeg;base64," ++ payload) ∧
      base64Decode payload.data = [116, 101, 115, 116] :=
  encodeImage_roundtrip (fun _ => some [116, 101, 115, 116]) "img.jpg"
    [116, 101, 115, 116] rfl (by decide)

end MoondreamGo
